import Mathlib

/-!
Shallow embedding of the payment/ledger core of the Kid Tok backend
(`src/cloudinary.js`): in-memory transaction and user stores, the
create-payment and confirm-payment handlers, and the two query endpoints.
Timestamps are modelled as natural numbers; each handler invocation receives
a single `now`. The external gateways (Stripe, Cloudinary) are modelled as
inputs: the gateway's create result and the retrieved intent status/amount
are parameters of the operations.
-/

namespace KidTok

/-- JS regex whitespace class membership, restricted to the common ASCII
whitespace characters. -/
def isSpaceChar (c : Char) : Bool :=
  c = ' ' || c = '\t' || c = '\n' || c = '\r' || c = '\x0b' || c = '\x0c'

/-- JS falsiness of an optional string field of `req.body`: absent
(`undefined`) or the empty string. -/
def falsyStr : Option String → Bool
  | none => true
  | some s => s.isEmpty

/-- A nonempty character run containing no whitespace and no `@`, as matched
by one `[^\s@]+` block of the email regex. -/
def tokenOk (cs : List Char) : Bool :=
  !cs.isEmpty && cs.all (fun c => !isSpaceChar c && c != '@')

/-- The domain part must decompose as `mid ++ [.] ++ tail` with `mid` and
`tail` nonempty: a dot occurs at an inner position. -/
def domainInnerDot (cs : List Char) : Bool :=
  match cs with
  | [] => false
  | _ :: rest => rest.dropLast.contains '.'

/-- The test of the source regex `/^[^\s@]+@[^\s@]+\.[^\s@]+$/` on a whole
string: a local part before a single `@`, then a domain with an inner dot,
no whitespace or further `@` anywhere. -/
def emailRegexTest (s : String) : Bool :=
  let cs := s.toList
  let localPart := cs.takeWhile (fun c => c != '@')
  match cs.dropWhile (fun c => c != '@') with
  | [] => false
  | _ :: domain => tokenOk localPart && tokenOk domain && domainInnerDot domain

/-- A transaction record as stored in the `transactions` map. -/
structure Transaction where
  paymentIntentId : String
  userId : String
  userName : String
  userEmail : String
  amount : Nat
  currency : String
  status : String
  createdAt : Nat
  completedAt : Option Nat
  deviceInfo : Option String
  appVersion : Option String
  purchaseType : String
deriving Repr, DecidableEq

/-- A user record as stored in the `users` map. `isPremium` and
`lastSuccessfulPurchase` are absent until the first confirmed purchase. -/
structure User where
  userId : String
  userName : String
  userEmail : String
  firstSeen : Nat
  lastPurchaseAttempt : Nat
  totalAttempts : Nat
  successfulPurchases : Nat
  totalSpent : Nat
  lastSuccessfulPurchase : Option Nat
  isPremium : Option Bool
deriving Repr, DecidableEq

/-- `Map.get`: first binding of the key, if any. -/
def mapGet {α : Type} (m : List (String × α)) (k : String) : Option α :=
  match m with
  | [] => none
  | (k1, v) :: rest => if k1 = k then some v else mapGet rest k

/-- `Map.set`: replace in place when the key exists (JS `Map` keeps the
original insertion position), append otherwise. -/
def mapSet {α : Type} (m : List (String × α)) (k : String) (v : α) :
    List (String × α) :=
  match m with
  | [] => [(k, v)]
  | (k1, v1) :: rest =>
    if k1 = k then (k, v) :: rest else (k1, v1) :: mapSet rest k v

/-- The whole in-memory ledger: `transactions` keyed by payment intent id,
`users` keyed by user id, both in insertion order. -/
structure Store where
  transactions : List (String × Transaction)
  users : List (String × User)
deriving Repr, DecidableEq

/-- The ledger at process start: both maps empty. -/
def emptyStore : Store := ⟨[], []⟩

/-- Outcome of the Stripe `paymentIntents.create` call: an intent id and
client secret, or a thrown error with message and optional type. -/
inductive GatewayCreateResult where
  | ok (id clientSecret : String)
  | err (message : String) (ty : Option String)
deriving Repr, DecidableEq

/-- Response of the create-payment handler, restricted to the fields the
ledger model observes. -/
inductive CreateResult where
  | validationError (error : String)
  | gatewayError (error ty : String)
  | ok (clientSecret paymentIntentId : String) (amount : Nat) (currency : String)
deriving Repr, DecidableEq

/-- The POST `/api/create-payment` handler: validate presence, validate the
email shape, call the gateway, then insert a pending transaction and upsert
the user record. Returns the response together with the new store. -/
def createPayment (st : Store)
    (userEmail userName userId deviceInfo appVersion purchaseType : Option String)
    (gw : GatewayCreateResult) (now : Nat) : CreateResult × Store :=
  if falsyStr userEmail || falsyStr userName || falsyStr userId then
    (.validationError
      "Missing required user information: userEmail, userName, and userId are required",
      st)
  else if !emailRegexTest (userEmail.getD "") then
    (.validationError "Invalid email format", st)
  else
    match gw with
    | .err message ty => (.gatewayError message (ty.getD "payment_creation_error"), st)
    | .ok id _clientSecret =>
      let email := userEmail.getD ""
      let name := userName.getD ""
      let uid := userId.getD ""
      let tx : Transaction :=
        { paymentIntentId := id
          userId := uid
          userName := name
          userEmail := email
          amount := 999
          currency := "usd"
          status := "pending"
          createdAt := now
          completedAt := none
          deviceInfo := deviceInfo
          appVersion := appVersion
          purchaseType := purchaseType.getD "unlimited_video_selection" }
      let txs := mapSet st.transactions id tx
      let usrs :=
        match mapGet st.users uid with
        | some u =>
          mapSet st.users uid
            { u with lastPurchaseAttempt := now, totalAttempts := u.totalAttempts + 1 }
        | none =>
          mapSet st.users uid
            { userId := uid
              userName := name
              userEmail := email
              firstSeen := now
              lastPurchaseAttempt := now
              totalAttempts := 1
              successfulPurchases := 0
              totalSpent := 0
              lastSuccessfulPurchase := none
              isPremium := none }
      (.ok _clientSecret id 999 "usd", ⟨txs, usrs⟩)

/-- Response of the confirm-payment handler. -/
inductive ConfirmResult where
  | validationError (error : String)
  | notCompleted (error status : String)
  | success (message paymentIntentId : String) (amount : Nat) (status : String)
deriving Repr, DecidableEq

/-- The POST `/api/confirm-payment` handler: validate presence, then act on
the status the gateway reports for the intent (`gwStatus`, with reported
amount `gwAmount`). On `succeeded`, mark the transaction completed when it
exists and update the caller-supplied user's aggregates when that user
exists; otherwise return a client error and leave the store untouched. -/
def confirmPayment (st : Store) (paymentIntentId userId : Option String)
    (gwStatus : String) (gwAmount : Nat) (now : Nat) : ConfirmResult × Store :=
  if falsyStr paymentIntentId || falsyStr userId then
    (.validationError "Missing paymentIntentId or userId", st)
  else
    let pid := paymentIntentId.getD ""
    let uid := userId.getD ""
    if gwStatus = "succeeded" then
      let st1 : Store :=
        match mapGet st.transactions pid with
        | some t =>
          { st with
            transactions :=
              mapSet st.transactions pid
                { t with status := "completed", completedAt := some now } }
        | none => st
      let st2 : Store :=
        match mapGet st1.users uid with
        | some u =>
          { st1 with
            users :=
              mapSet st1.users uid
                { u with
                  successfulPurchases := u.successfulPurchases + 1
                  totalSpent := u.totalSpent + gwAmount
                  lastSuccessfulPurchase := some now
                  isPremium := some true } }
        | none => st1
      (.success "Payment confirmed successfully" pid gwAmount gwStatus, st2)
    else
      (.notCompleted "Payment not completed" gwStatus, st)

/-- The sort order of both query endpoints: newest first by `createdAt`
(the JS comparator subtracts dates, descending). -/
def byNewest (a b : Transaction) : Prop := b.createdAt ≤ a.createdAt

instance : DecidableRel byNewest := fun a b => Nat.decLe b.createdAt a.createdAt

instance : IsTotal Transaction byNewest :=
  ⟨fun a b => Nat.le_total b.createdAt a.createdAt⟩

instance : IsTrans Transaction byNewest :=
  ⟨fun _ _ _ hab hbc => Nat.le_trans hbc hab⟩

/-- Sorting a list of transactions newest-first, as both query endpoints do
with `Array.prototype.sort` (stable). -/
def sortNewestFirst (l : List Transaction) : List Transaction :=
  List.insertionSort byNewest l

/-- The summary block of the GET `/api/user/:userId` response. -/
structure UserSummary where
  totalTransactions : Nat
  successfulTransactions : Nat
  totalSpent : Nat
  isPremium : Bool
deriving Repr, DecidableEq

/-- Response of the GET `/api/user/:userId` handler. -/
inductive GetUserResult where
  | notFound (error : String)
  | ok (user : User) (transactions : List Transaction) (summary : UserSummary)
deriving Repr, DecidableEq

/-- The GET `/api/user/:userId` handler: 404 when the user is unknown,
otherwise the user record, that user's transactions newest-first, and a
summary. -/
def getUser (st : Store) (userId : String) : GetUserResult :=
  match mapGet st.users userId with
  | none => .notFound "User not found"
  | some userData =>
    let userTransactions :=
      sortNewestFirst
        ((st.transactions.map Prod.snd).filter (fun t => t.userId == userId))
    .ok userData userTransactions
      { totalTransactions := userTransactions.length
        successfulTransactions :=
          (userTransactions.filter (fun t => t.status == "completed")).length
        totalSpent := userData.totalSpent
        isPremium := userData.isPremium.getD false }

/-- The summary block of the GET `/api/admin/transactions` response. -/
structure AdminSummary where
  totalTransactions : Nat
  completedTransactions : Nat
  pendingTransactions : Nat
  totalRevenue : Nat
  uniqueUsers : Nat
deriving Repr, DecidableEq

/-- The GET `/api/admin/transactions` handler: every transaction
newest-first plus counts, completed revenue, and the number of distinct
user ids (the JS `new Set(...).size`). -/
def listAllTransactions (st : Store) : List Transaction × AdminSummary :=
  let allTransactions := sortNewestFirst (st.transactions.map Prod.snd)
  (allTransactions,
    { totalTransactions := allTransactions.length
      completedTransactions :=
        (allTransactions.filter (fun t => t.status == "completed")).length
      pendingTransactions :=
        (allTransactions.filter (fun t => t.status == "pending")).length
      totalRevenue :=
        ((allTransactions.filter (fun t => t.status == "completed")).map
          (fun t => t.amount)).sum
      uniqueUsers := ((allTransactions.map (fun t => t.userId)).dedup).length })

/-- A single ledger-mutating request: one invocation of either handler,
carrying the gateway's answers and the wall-clock time as data. -/
inductive Op where
  | create (userEmail userName userId deviceInfo appVersion purchaseType : Option String)
      (gw : GatewayCreateResult) (now : Nat)
  | confirm (paymentIntentId userId : Option String) (gwStatus : String)
      (gwAmount : Nat) (now : Nat)

/-- The store after one handler invocation. -/
def applyOp (st : Store) : Op → Store
  | .create e n u d a p gw now => (createPayment st e n u d a p gw now).2
  | .confirm pid uid s amt now => (confirmPayment st pid uid s amt now).2

/-- Gateway-uniqueness side condition (spec §3 invariant: `paymentRef` is
gateway-assigned and unique): an intent id returned by a create call is not
already a key of the transactions map. -/
def freshOp (st : Store) : Op → Prop
  | .create _ _ _ _ _ _ (.ok id _) _ => mapGet st.transactions id = none
  | _ => True

/-- Ledger states reachable from the empty store by handler invocations
whose gateway-assigned intent ids are fresh. -/
inductive Reachable : Store → Prop
  | empty : Reachable emptyStore
  | step {st : Store} {op : Op} : Reachable st → freshOp st op →
      Reachable (applyOp st op)

/-! ### Map lemmas -/

theorem mapGet_mapSet_self {α : Type} (m : List (String × α)) (k : String) (v : α) :
    mapGet (mapSet m k v) k = some v := by
  induction m with
  | nil => simp [mapGet, mapSet]
  | cons hd rest ih =>
    obtain ⟨k1, v1⟩ := hd
    by_cases h : k1 = k
    · simp [mapSet, h, mapGet]
    · simp [mapSet, h, mapGet, ih]

theorem mapGet_mapSet_ne {α : Type} (m : List (String × α)) (k p : String) (v : α)
    (h : p ≠ k) : mapGet (mapSet m k v) p = mapGet m p := by
  induction m with
  | nil => simp [mapGet, mapSet, Ne.symm h]
  | cons hd rest ih =>
    obtain ⟨k1, v1⟩ := hd
    by_cases hk : k1 = k
    · subst hk
      simp [mapSet, mapGet, Ne.symm h]
    · simp [mapSet, hk, mapGet, ih]

theorem mapGet_mapSet_cases {α : Type} (m : List (String × α)) (k p : String)
    (v t : α) (h : mapGet (mapSet m k v) p = some t) :
    (p = k ∧ t = v) ∨ (p ≠ k ∧ mapGet m p = some t) := by
  by_cases hpk : p = k
  · subst hpk
    rw [mapGet_mapSet_self] at h
    exact Or.inl ⟨rfl, (Option.some_inj.mp h).symm⟩
  · rw [mapGet_mapSet_ne m k p v hpk] at h
    exact Or.inr ⟨hpk, h⟩

/-- A present, nonempty string field is not falsy. -/
theorem falsyStr_some_eq_false (s : String) (h : s ≠ "") :
    falsyStr (some s) = false := by
  simp only [falsyStr]
  rw [Bool.eq_false_iff]
  exact fun hc => h ((String.isEmpty_iff s).mp hc)

/-! ### C2: failed gateway status leaves the ledger untouched -/

/-- C2: whenever the gateway reports a status other than `succeeded` for a
well-formed confirm request, the handler returns the client error carrying
that actual status and the store — both maps — is returned unchanged. -/
theorem confirmPayment_not_succeeded_no_mutation (st : Store) (pid uid : String)
    (hp : pid ≠ "") (hu : uid ≠ "") (gwStatus : String) (gwAmount now : Nat)
    (h : gwStatus ≠ "succeeded") :
    confirmPayment st (some pid) (some uid) gwStatus gwAmount now =
      (.notCompleted "Payment not completed" gwStatus, st) := by
  have h1 : falsyStr (some pid) = false := falsyStr_some_eq_false pid hp
  have h2 : falsyStr (some uid) = false := falsyStr_some_eq_false uid hu
  simp [confirmPayment, h1, h2, h]

/-- Witness for C2 at a concrete failed status. -/
theorem confirmPayment_not_succeeded_no_mutation_witness :
    confirmPayment emptyStore (some "pi_1") (some "u1")
        "requires_payment_method" 999 7 =
      (.notCompleted "Payment not completed" "requires_payment_method",
        emptyStore) :=
  confirmPayment_not_succeeded_no_mutation emptyStore "pi_1" "u1"
    (by decide) (by decide) "requires_payment_method" 999 7 (by decide)

/-! ### C3: one create followed by one successful confirm -/

def c3Store1 : Store :=
  (createPayment emptyStore (some "a@b.com") (some "A") (some "u1")
    none none none (.ok "pi_1" "sec_1") 1).2

def c3Store2 : Store :=
  (confirmPayment c3Store1 (some "pi_1") (some "u1") "succeeded" 999 2).2

/-- C3: from the empty ledger, one successful create for user `u1` and one
confirm with the gateway reporting `succeeded` and amount 999 leave the
transaction completed with `completedAt` set, and the user with one
successful purchase, 999 spent, and premium granted. -/
theorem create_then_confirm_completes :
    (mapGet c3Store1.transactions "pi_1").map
        (fun t => (t.status, t.amount, t.currency, t.completedAt)) =
      some ("pending", 999, "usd", none) ∧
    (mapGet c3Store2.transactions "pi_1").map
        (fun t => (t.status, t.completedAt)) =
      some ("completed", some 2) ∧
    (mapGet c3Store2.users "u1").map
        (fun u => (u.successfulPurchases, u.totalSpent, u.isPremium.getD false)) =
      some (1, 999, true) := by
  decide

/-! ### C1: repeated confirmation of the same intent -/

def c1Store0 : Store :=
  (createPayment emptyStore (some "a@b.com") (some "Alice") (some "u1")
    none none none (.ok "pi_1" "sec_1") 1).2

def c1Store1 : Store :=
  (confirmPayment c1Store0 (some "pi_1") (some "u1") "succeeded" 999 5).2

def c1Store2 : Store :=
  (confirmPayment c1Store1 (some "pi_1") (some "u1") "succeeded" 999 9).2

/-- C1: evaluation of the code at the failing input. Confirming the same
already-completed intent a second time is not a semantic no-op: the second
call overwrites `completedAt` (5 becomes 9) and double-counts the user
aggregates (`successfulPurchases` 2, `totalSpent` 1998) instead of leaving
the single-confirmation state in place. -/
theorem confirm_second_call_double_counts :
    (mapGet c1Store1.transactions "pi_1").map (fun t => (t.status, t.completedAt)) =
      some ("completed", some 5) ∧
    (mapGet c1Store1.users "u1").map
        (fun u => (u.successfulPurchases, u.totalSpent)) = some (1, 999) ∧
    (mapGet c1Store2.transactions "pi_1").map (fun t => t.completedAt) =
      some (some 9) ∧
    (mapGet c1Store2.users "u1").map
        (fun u => (u.successfulPurchases, u.totalSpent, u.isPremium)) =
      some (2, 1998, some true) := by
  decide

/-! ### C6: create-payment validation failures mutate nothing -/

/-- C6: when any of `userEmail`, `userName`, `userId` is missing (falsy) the
handler answers the missing-information validation error, and when all are
present but the email fails the regex it answers the invalid-email
validation error; in both cases the store is returned unchanged. -/
theorem createPayment_validation_no_mutation (st : Store)
    (ue un ui di av pt : Option String) (gw : GatewayCreateResult) (now : Nat) :
    ((falsyStr ue || falsyStr un || falsyStr ui) = true →
      createPayment st ue un ui di av pt gw now =
        (.validationError
          "Missing required user information: userEmail, userName, and userId are required",
          st)) ∧
    ((falsyStr ue || falsyStr un || falsyStr ui) = false →
      emailRegexTest (ue.getD "") = false →
      createPayment st ue un ui di av pt gw now =
        (.validationError "Invalid email format", st)) := by
  constructor
  · intro h
    simp [createPayment, h]
  · intro h hemail
    simp [createPayment, h, hemail]

/-- Witness for C6: a missing email and a malformed email, both against the
empty store, leave it empty. -/
theorem createPayment_validation_no_mutation_witness :
    createPayment emptyStore none (some "A") (some "u1") none none none
        (.ok "pi_1" "sec_1") 0 =
      (.validationError
        "Missing required user information: userEmail, userName, and userId are required",
        emptyStore) ∧
    createPayment emptyStore (some "not-an-email") (some "A") (some "u1")
        none none none (.ok "pi_1" "sec_1") 0 =
      (.validationError "Invalid email format", emptyStore) :=
  ⟨(createPayment_validation_no_mutation emptyStore none (some "A") (some "u1")
      none none none (.ok "pi_1" "sec_1") 0).1 (by decide),
   (createPayment_validation_no_mutation emptyStore (some "not-an-email")
      (some "A") (some "u1") none none none (.ok "pi_1" "sec_1") 0).2
      (by decide) (by decide)⟩

/-! ### C9: succeeded confirmation with missing records -/

/-- C9: on a `succeeded` gateway status the handler reports success based on
the gateway status alone, and each ledger update is skipped silently when
its record is absent: a missing transaction leaves the transactions map
unchanged and a missing user leaves the users map unchanged. -/
theorem confirmPayment_missing_records_skipped (st : Store) (pid uid : String)
    (hp : pid ≠ "") (hu : uid ≠ "") (gwAmount now : Nat) :
    (confirmPayment st (some pid) (some uid) "succeeded" gwAmount now).1 =
      .success "Payment confirmed successfully" pid gwAmount "succeeded" ∧
    (mapGet st.transactions pid = none →
      ((confirmPayment st (some pid) (some uid) "succeeded" gwAmount now).2).transactions =
        st.transactions) ∧
    (mapGet st.users uid = none →
      ((confirmPayment st (some pid) (some uid) "succeeded" gwAmount now).2).users =
        st.users) := by
  have h1 : falsyStr (some pid) = false := falsyStr_some_eq_false pid hp
  have h2 : falsyStr (some uid) = false := falsyStr_some_eq_false uid hu
  cases htx : mapGet st.transactions pid <;>
    cases hus : mapGet st.users uid <;>
      simp [confirmPayment, h1, h2, htx, hus]

/-- Witness for C9: confirming against the empty ledger still succeeds and
changes nothing. -/
theorem confirmPayment_missing_records_skipped_witness :
    (confirmPayment emptyStore (some "pi_9") (some "u9") "succeeded" 999 3).1 =
      .success "Payment confirmed successfully" "pi_9" 999 "succeeded" ∧
    ((confirmPayment emptyStore (some "pi_9") (some "u9") "succeeded" 999 3).2).transactions =
      emptyStore.transactions ∧
    ((confirmPayment emptyStore (some "pi_9") (some "u9") "succeeded" 999 3).2).users =
      emptyStore.users := by
  obtain ⟨a, b, c⟩ := confirmPayment_missing_records_skipped emptyStore "pi_9" "u9"
    (by decide) (by decide) 999 3
  exact ⟨a, b (by decide), c (by decide)⟩

/-! ### C10: aggregates keyed by the caller-supplied user id -/

/-- C10: on a succeeded confirmation the transaction keyed by the intent is
marked completed regardless of who owns it, while the aggregate update is
applied to the record keyed by the caller-supplied user id: a caller naming
a user different from the transaction's owner credits that other user and
leaves the owner's record untouched. -/
theorem confirmPayment_credits_caller_user (st : Store) (pid u1 u2 : String)
    (hp : pid ≠ "") (hu : u2 ≠ "") (hne : u1 ≠ u2)
    (t : Transaction) (ht : mapGet st.transactions pid = some t)
    (_howner : t.userId = u1)
    (r1 : User) (hr1 : mapGet st.users u1 = some r1)
    (r2 : User) (hr2 : mapGet st.users u2 = some r2)
    (gwAmount now : Nat) :
    mapGet ((confirmPayment st (some pid) (some u2) "succeeded" gwAmount now).2).transactions pid =
      some { t with status := "completed", completedAt := some now } ∧
    mapGet ((confirmPayment st (some pid) (some u2) "succeeded" gwAmount now).2).users u2 =
      some { r2 with
        successfulPurchases := r2.successfulPurchases + 1
        totalSpent := r2.totalSpent + gwAmount
        lastSuccessfulPurchase := some now
        isPremium := some true } ∧
    mapGet ((confirmPayment st (some pid) (some u2) "succeeded" gwAmount now).2).users u1 =
      some r1 := by
  have h1 := falsyStr_some_eq_false pid hp
  have h2 := falsyStr_some_eq_false u2 hu
  simp [confirmPayment, h1, h2, ht, hr2, mapGet_mapSet_self,
    mapGet_mapSet_ne st.users u2 u1 _ hne, hr1]

def c10Tx : Transaction :=
  { paymentIntentId := "pi_9", userId := "u1", userName := "A"
    userEmail := "a@b.com", amount := 999, currency := "usd"
    status := "pending", createdAt := 1, completedAt := none
    deviceInfo := none, appVersion := none
    purchaseType := "unlimited_video_selection" }

def c10U1 : User :=
  { userId := "u1", userName := "A", userEmail := "a@b.com", firstSeen := 1
    lastPurchaseAttempt := 1, totalAttempts := 1, successfulPurchases := 0
    totalSpent := 0, lastSuccessfulPurchase := none, isPremium := none }

def c10U2 : User :=
  { c10U1 with userId := "u2", userName := "B", userEmail := "b@b.com" }

def c10Store : Store := ⟨[("pi_9", c10Tx)], [("u1", c10U1), ("u2", c10U2)]⟩

/-- Witness for C10: user `u2` confirms the transaction created by `u1`. -/
theorem confirmPayment_credits_caller_user_witness :
    mapGet ((confirmPayment c10Store (some "pi_9") (some "u2") "succeeded" 999 4).2).transactions "pi_9" =
      some { c10Tx with status := "completed", completedAt := some 4 } ∧
    mapGet ((confirmPayment c10Store (some "pi_9") (some "u2") "succeeded" 999 4).2).users "u2" =
      some { c10U2 with
        successfulPurchases := c10U2.successfulPurchases + 1
        totalSpent := c10U2.totalSpent + 999
        lastSuccessfulPurchase := some 4
        isPremium := some true } ∧
    mapGet ((confirmPayment c10Store (some "pi_9") (some "u2") "succeeded" 999 4).2).users "u1" =
      some c10U1 :=
  confirmPayment_credits_caller_user c10Store "pi_9" "u1" "u2"
    (by decide) (by decide) (by decide) c10Tx (by decide) (by decide)
    c10U1 (by decide) c10U2 (by decide) 999 4

/-! ### C4: totalAttempts counts the successful create calls -/

/-- One invocation of the create-payment handler, with the gateway's answer
and the wall-clock time carried as data. -/
structure CreateCall where
  userEmail : Option String
  userName : Option String
  userId : Option String
  deviceInfo : Option String
  appVersion : Option String
  purchaseType : Option String
  gw : GatewayCreateResult
  now : Nat

/-- The store after one create-payment invocation. -/
def runCreate (st : Store) (c : CreateCall) : Store :=
  (createPayment st c.userEmail c.userName c.userId c.deviceInfo c.appVersion
    c.purchaseType c.gw c.now).2

/-- The store after a sequence of create-payment invocations. -/
def runCreates (st : Store) : List CreateCall → Store
  | [] => st
  | c :: rest => runCreates (runCreate st c) rest

/-- A create call that passes both validations and whose gateway call
returns an intent. -/
def createSucceeds (c : CreateCall) : Prop :=
  falsyStr c.userEmail = false ∧ falsyStr c.userName = false ∧
  falsyStr c.userId = false ∧ emailRegexTest (c.userEmail.getD "") = true ∧
  ∃ id secret, c.gw = .ok id secret

/-- The `totalAttempts` counter of a user, zero when the record is absent. -/
def attemptsOf (st : Store) (uid : String) : Nat :=
  match mapGet st.users uid with
  | none => 0
  | some r => r.totalAttempts

theorem falsyStr_eq_false {o : Option String} (h : falsyStr o = false) :
    ∃ s, o = some s ∧ s ≠ "" := by
  cases o with
  | none => simp [falsyStr] at h
  | some s =>
    refine ⟨s, rfl, fun hs => ?_⟩
    subst hs
    exact absurd h (by decide)

/-- The fresh user record a create call installs for an unknown user. -/
def newUserRecord (c : CreateCall) : User :=
  { userId := c.userId.getD ""
    userName := c.userName.getD ""
    userEmail := c.userEmail.getD ""
    firstSeen := c.now
    lastPurchaseAttempt := c.now
    totalAttempts := 1
    successfulPurchases := 0
    totalSpent := 0
    lastSuccessfulPurchase := none
    isPremium := none }

/-- Users map after a successful create call for an existing user: only
`lastPurchaseAttempt` and `totalAttempts` are rewritten. -/
theorem runCreate_users_existing (st : Store) (c : CreateCall) (u : User)
    (h : createSucceeds c) (hu : mapGet st.users (c.userId.getD "") = some u) :
    (runCreate st c).users =
      mapSet st.users (c.userId.getD "")
        { u with lastPurchaseAttempt := c.now, totalAttempts := u.totalAttempts + 1 } := by
  obtain ⟨h1, h2, h3, h4, id, secret, hgw⟩ := h
  simp [runCreate, createPayment, h1, h2, h3, h4, hgw, hu]

/-- Users map after a successful create call for an unknown user: a fresh
record with one attempt and zeroed aggregates. -/
theorem runCreate_users_new (st : Store) (c : CreateCall)
    (h : createSucceeds c) (hu : mapGet st.users (c.userId.getD "") = none) :
    (runCreate st c).users =
      mapSet st.users (c.userId.getD "") (newUserRecord c) := by
  obtain ⟨h1, h2, h3, h4, id, secret, hgw⟩ := h
  simp [runCreate, createPayment, newUserRecord, h1, h2, h3, h4, hgw, hu]

/-- One successful create call raises the caller's attempt counter by one
and leaves every other user's counter alone. -/
theorem runCreate_attemptsOf (st : Store) (c : CreateCall) (uid : String)
    (h : createSucceeds c) :
    attemptsOf (runCreate st c) uid =
      attemptsOf st uid + (if c.userId = some uid then 1 else 0) := by
  obtain ⟨u1, hu1, hne⟩ := falsyStr_eq_false h.2.2.1
  have hgetd : c.userId.getD "" = u1 := by rw [hu1]; rfl
  by_cases huid : u1 = uid
  · subst huid
    cases hget : mapGet st.users (c.userId.getD "") with
    | none =>
      unfold attemptsOf
      rw [runCreate_users_new st c h hget, hgetd, mapGet_mapSet_self]
      rw [hgetd] at hget
      rw [hget, hu1]
      simp [newUserRecord]
    | some u =>
      unfold attemptsOf
      rw [runCreate_users_existing st c u h hget, hgetd, mapGet_mapSet_self]
      rw [hgetd] at hget
      rw [hget, hu1]
      simp
  · have hne2 : uid ≠ u1 := Ne.symm huid
    have hif : (if c.userId = some uid then 1 else 0) = 0 := by
      rw [hu1]
      simp [huid]
    cases hget : mapGet st.users (c.userId.getD "") with
    | none =>
      unfold attemptsOf
      rw [runCreate_users_new st c h hget, hgetd,
        mapGet_mapSet_ne st.users u1 uid _ hne2, hif]
      omega
    | some u =>
      unfold attemptsOf
      rw [runCreate_users_existing st c u h hget, hgetd,
        mapGet_mapSet_ne st.users u1 uid _ hne2, hif]
      omega

/-- A successful create call never deletes a user record. -/
theorem runCreate_preserves_user (st : Store) (c : CreateCall) (uid : String)
    (h : createSucceeds c) (hr : (mapGet st.users uid).isSome = true) :
    (mapGet (runCreate st c).users uid).isSome = true := by
  obtain ⟨u1, hu1, _⟩ := falsyStr_eq_false h.2.2.1
  have hgetd : c.userId.getD "" = u1 := by rw [hu1]; rfl
  by_cases huid : u1 = uid
  · subst huid
    cases hget : mapGet st.users (c.userId.getD "") with
    | none => rw [runCreate_users_new st c h hget, hgetd, mapGet_mapSet_self]; rfl
    | some u =>
      rw [runCreate_users_existing st c u h hget, hgetd, mapGet_mapSet_self]; rfl
  · have hne2 : uid ≠ u1 := Ne.symm huid
    cases hget : mapGet st.users (c.userId.getD "") with
    | none =>
      rw [runCreate_users_new st c h hget, hgetd,
        mapGet_mapSet_ne st.users u1 uid _ hne2]
      exact hr
    | some u =>
      rw [runCreate_users_existing st c u h hget, hgetd,
        mapGet_mapSet_ne st.users u1 uid _ hne2]
      exact hr

/-- Attempt counters accumulate over a sequence of successful create
calls. -/
theorem runCreates_attemptsOf (calls : List CreateCall) (st : Store)
    (uid : String) (hall : ∀ c ∈ calls, createSucceeds c) :
    attemptsOf (runCreates st calls) uid =
      attemptsOf st uid +
        calls.countP (fun c => decide (c.userId = some uid)) := by
  induction calls generalizing st with
  | nil => simp [runCreates]
  | cons c rest ih =>
    have hc : createSucceeds c := hall c (List.mem_cons_self c rest)
    have hrest : ∀ d ∈ rest, createSucceeds d := fun d hd =>
      hall d (List.mem_cons_of_mem c hd)
    rw [runCreates, ih (runCreate st c) hrest, runCreate_attemptsOf st c uid hc,
      List.countP_cons]
    have hsame :
        (if (fun c : CreateCall => decide (c.userId = some uid)) c = true
          then 1 else 0) = (if c.userId = some uid then 1 else 0) := by
      simp
    rw [hsame]
    omega

/-- A user present before a sequence of successful create calls is still
present afterwards. -/
theorem runCreates_preserves_user (calls : List CreateCall) (st : Store)
    (uid : String) (hall : ∀ c ∈ calls, createSucceeds c)
    (hr : (mapGet st.users uid).isSome = true) :
    (mapGet (runCreates st calls).users uid).isSome = true := by
  induction calls generalizing st with
  | nil => simpa [runCreates] using hr
  | cons c rest ih =>
    have hc : createSucceeds c := hall c (List.mem_cons_self c rest)
    have hrest : ∀ d ∈ rest, createSucceeds d := fun d hd =>
      hall d (List.mem_cons_of_mem c hd)
    exact ih (runCreate st c) hrest (runCreate_preserves_user st c uid hc hr)

/-- After a sequence of successful create calls touching a user at least
once, that user's record exists. -/
theorem runCreates_user_exists (calls : List CreateCall) (st : Store)
    (uid : String) (hall : ∀ c ∈ calls, createSucceeds c)
    (hpos : 0 < calls.countP (fun c => decide (c.userId = some uid))) :
    (mapGet (runCreates st calls).users uid).isSome = true := by
  induction calls generalizing st with
  | nil => simp at hpos
  | cons c rest ih =>
    have hc : createSucceeds c := hall c (List.mem_cons_self c rest)
    have hrest : ∀ d ∈ rest, createSucceeds d := fun d hd =>
      hall d (List.mem_cons_of_mem c hd)
    by_cases hid : c.userId = some uid
    · refine runCreates_preserves_user rest (runCreate st c) uid hrest ?_
      obtain ⟨u1, hu1, _⟩ := falsyStr_eq_false hc.2.2.1
      have huid : u1 = uid := by
        rw [hu1] at hid
        exact Option.some_inj.mp hid
      subst huid
      have hgetd : c.userId.getD "" = u1 := by rw [hu1]; rfl
      cases hget : mapGet st.users (c.userId.getD "") with
      | none =>
        rw [runCreate_users_new st c hc hget, hgetd, mapGet_mapSet_self]
        rfl
      | some u =>
        rw [runCreate_users_existing st c u hc hget, hgetd, mapGet_mapSet_self]
        rfl
    · rw [runCreates]
      refine ih (runCreate st c) hrest ?_
      rw [List.countP_cons] at hpos
      simpa [hid] using hpos

/-- C4: (i) a successful create for an existing user rewrites only
`lastPurchaseAttempt` and `totalAttempts` (everything else, in particular
the aggregates, is copied from the old record); (ii) a successful create
for an unknown user installs a fresh record with `totalAttempts = 1` and
zeroed aggregates; (iii) over any sequence of successful create calls
starting from a store where the user is absent, the user ends up with
`totalAttempts` equal to the number of calls carrying that user id. -/
theorem createPayment_totalAttempts_spec (st : Store) :
    ((∀ ue un ui : String, ∀ di av pt : Option String, ∀ id secret : String, ∀ now : Nat,
        ue ≠ "" → un ≠ "" → ui ≠ "" → emailRegexTest ue = true →
        (∀ u, mapGet st.users ui = some u →
          (createPayment st (some ue) (some un) (some ui) di av pt
              (.ok id secret) now).2.users =
            mapSet st.users ui
              { u with lastPurchaseAttempt := now, totalAttempts := u.totalAttempts + 1 }) ∧
        (mapGet st.users ui = none →
          (createPayment st (some ue) (some un) (some ui) di av pt
              (.ok id secret) now).2.users =
            mapSet st.users ui
              { userId := ui, userName := un, userEmail := ue, firstSeen := now
                lastPurchaseAttempt := now, totalAttempts := 1
                successfulPurchases := 0, totalSpent := 0
                lastSuccessfulPurchase := none, isPremium := none })) ∧
    (∀ calls : List CreateCall, (∀ c ∈ calls, createSucceeds c) →
      ∀ uid : String, mapGet st.users uid = none →
        0 < calls.countP (fun c => decide (c.userId = some uid)) →
        ∃ r, mapGet (runCreates st calls).users uid = some r ∧
          r.totalAttempts =
            calls.countP (fun c => decide (c.userId = some uid)))) := by
  constructor
  · intro ue un ui di av pt id secret now hue hun hui hemail
    have h1 := falsyStr_some_eq_false ue hue
    have h2 := falsyStr_some_eq_false un hun
    have h3 := falsyStr_some_eq_false ui hui
    constructor
    · intro u hu
      simp [createPayment, h1, h2, h3, hemail, hu]
    · intro hu
      simp [createPayment, h1, h2, h3, hemail, hu]
  · intro calls hall uid habsent hpos
    have hex := runCreates_user_exists calls st uid hall hpos
    obtain ⟨r, hr⟩ := Option.isSome_iff_exists.mp hex
    refine ⟨r, hr, ?_⟩
    have hcount := runCreates_attemptsOf calls st uid hall
    unfold attemptsOf at hcount
    rw [habsent, hr] at hcount
    simpa using hcount

def c4Call1 : CreateCall :=
  ⟨some "a@b.com", some "A", some "u1", none, none, none, .ok "pi_1" "s1", 1⟩

def c4Call2 : CreateCall :=
  ⟨some "a@b.com", some "A", some "u1", none, none, none, .ok "pi_2" "s2", 2⟩

/-- Witness for C4: two successful creates for the same new user leave
`totalAttempts = 2`. -/
theorem createPayment_totalAttempts_spec_witness :
    ∃ r, mapGet (runCreates emptyStore [c4Call1, c4Call2]).users "u1" = some r ∧
      r.totalAttempts = 2 := by
  have hall : ∀ c ∈ [c4Call1, c4Call2], createSucceeds c := by
    intro c hc
    rcases List.mem_cons.mp hc with rfl | hc2
    · exact ⟨by decide, by decide, by decide, by decide, "pi_1", "s1", rfl⟩
    rcases List.mem_cons.mp hc2 with rfl | hc3
    · exact ⟨by decide, by decide, by decide, by decide, "pi_2", "s2", rfl⟩
    · simp at hc3
  obtain ⟨r, hr, ha⟩ :=
    (createPayment_totalAttempts_spec emptyStore).2 [c4Call1, c4Call2] hall "u1"
      rfl (by decide)
  exact ⟨r, hr, ha.trans (by decide)⟩

/-! ### C5: transaction status is monotonic -/

/-- Every stored transaction's status is `pending` or `completed`. -/
def statusOk (st : Store) : Prop :=
  ∀ p t, mapGet st.transactions p = some t →
    t.status = "pending" ∨ t.status = "completed"

/-- Shape of the transactions map after a create call: unchanged, or one
insert of a pending transaction at the gateway-assigned intent id. -/
theorem createPayment_transactions_shape (st : Store)
    (e n u d a p : Option String) (gw : GatewayCreateResult) (now : Nat) :
    (createPayment st e n u d a p gw now).2.transactions = st.transactions ∨
    ∃ id secret tx, gw = .ok id secret ∧ tx.status = "pending" ∧
      (createPayment st e n u d a p gw now).2.transactions =
        mapSet st.transactions id tx := by
  by_cases h1 : (falsyStr e || falsyStr n || falsyStr u) = true
  · left
    simp [createPayment, h1]
  · rw [Bool.not_eq_true] at h1
    by_cases h2 : emailRegexTest (e.getD "") = true
    · cases gw with
      | err m ty =>
        left
        simp [createPayment, h1, h2]
      | ok id secret =>
        right
        refine ⟨id, secret,
          { paymentIntentId := id, userId := u.getD "", userName := n.getD ""
            userEmail := e.getD "", amount := 999, currency := "usd"
            status := "pending", createdAt := now, completedAt := none
            deviceInfo := d, appVersion := a
            purchaseType := p.getD "unlimited_video_selection" },
          rfl, rfl, ?_⟩
        simp [createPayment, h1, h2]
    · left
      rw [Bool.not_eq_true] at h2
      simp [createPayment, h1, h2]

/-- Shape of the transactions map after a confirm call: unchanged, or one
overwrite that marks an existing transaction completed. -/
theorem confirmPayment_transactions_shape (st : Store)
    (pid uid : Option String) (s : String) (amt now : Nat) :
    (confirmPayment st pid uid s amt now).2.transactions = st.transactions ∨
    ∃ q t, mapGet st.transactions q = some t ∧
      (confirmPayment st pid uid s amt now).2.transactions =
        mapSet st.transactions q
          { t with status := "completed", completedAt := some now } := by
  by_cases h1 : (falsyStr pid || falsyStr uid) = true
  · left
    simp [confirmPayment, h1]
  · rw [Bool.not_eq_true] at h1
    by_cases h2 : s = "succeeded"
    · cases htx : mapGet st.transactions (pid.getD "") with
      | none =>
        left
        cases hus : mapGet st.users (uid.getD "") <;>
          simp [confirmPayment, h1, h2, htx, hus]
      | some t =>
        right
        refine ⟨pid.getD "", t, htx, ?_⟩
        cases hus : mapGet st.users (uid.getD "") <;>
          simp [confirmPayment, h1, h2, htx, hus]
    · left
      simp [confirmPayment, h1, h2]

/-- Both handlers preserve the status invariant. -/
theorem statusOk_applyOp (st : Store) (op : Op) (h : statusOk st) :
    statusOk (applyOp st op) := by
  have hshape :
      (applyOp st op).transactions = st.transactions ∨
      ∃ q tx, (applyOp st op).transactions = mapSet st.transactions q tx ∧
        (tx.status = "pending" ∨ tx.status = "completed") := by
    cases op with
    | create e n u d a p gw now =>
      rcases createPayment_transactions_shape st e n u d a p gw now with
        hsame | ⟨id, secret, tx, _, hpend, hset⟩
      · exact Or.inl hsame
      · exact Or.inr ⟨id, tx, hset, Or.inl hpend⟩
    | confirm pid uid s amt now =>
      rcases confirmPayment_transactions_shape st pid uid s amt now with
        hsame | ⟨q, t, _, hset⟩
      · exact Or.inl hsame
      · exact Or.inr ⟨q, _, hset, Or.inr rfl⟩
  intro p t hp
  rcases hshape with hsame | ⟨q, tx, hset, hstat⟩
  · exact h p t (hsame ▸ hp)
  · rw [hset] at hp
    rcases mapGet_mapSet_cases st.transactions q p tx t hp with ⟨_, rfl⟩ | ⟨_, hold⟩
    · exact hstat
    · exact h p t hold

/-- Under the gateway-uniqueness side condition, a completed transaction
stays completed across any handler invocation. -/
theorem completed_persists (st : Store) (op : Op) (hfresh : freshOp st op)
    (p : String) (t : Transaction) (hp : mapGet st.transactions p = some t)
    (hc : t.status = "completed") :
    ∃ t2, mapGet (applyOp st op).transactions p = some t2 ∧
      t2.status = "completed" := by
  cases op with
  | create e n u d a pt gw now =>
    rcases createPayment_transactions_shape st e n u d a pt gw now with
      hsame | ⟨id, secret, tx, hgw, _, hset⟩
    · exact ⟨t, by rw [show applyOp st (.create e n u d a pt gw now) =
        (createPayment st e n u d a pt gw now).2 from rfl, hsame]; exact hp, hc⟩
    · have hidfresh : mapGet st.transactions id = none := by
        rw [hgw] at hfresh
        exact hfresh
      have hne : p ≠ id := fun he => by
        rw [he, hidfresh] at hp
        exact Option.noConfusion hp
      refine ⟨t, ?_, hc⟩
      rw [show applyOp st (.create e n u d a pt gw now) =
        (createPayment st e n u d a pt gw now).2 from rfl, hset,
        mapGet_mapSet_ne st.transactions id p tx hne]
      exact hp
  | confirm pid uid s amt now =>
    rcases confirmPayment_transactions_shape st pid uid s amt now with
      hsame | ⟨q, t0, _, hset⟩
    · exact ⟨t, by rw [show applyOp st (.confirm pid uid s amt now) =
        (confirmPayment st pid uid s amt now).2 from rfl, hsame]; exact hp, hc⟩
    · rw [show applyOp st (.confirm pid uid s amt now) =
        (confirmPayment st pid uid s amt now).2 from rfl, hset]
      by_cases hpq : p = q
      · subst hpq
        exact ⟨_, mapGet_mapSet_self st.transactions p _, rfl⟩
      · rw [mapGet_mapSet_ne st.transactions q p _ hpq]
        exact ⟨t, hp, hc⟩

/-- C5: in every reachable ledger state each transaction's status is
`pending` or `completed`; under the gateway-uniqueness side condition any
handler invocation keeps a completed transaction completed, and can take a
pending transaction only to `pending` or `completed` — never anywhere
else. -/
theorem transaction_status_monotonic (st : Store) (h : Reachable st) :
    (∀ p t, mapGet st.transactions p = some t →
      t.status = "pending" ∨ t.status = "completed") ∧
    (∀ op, freshOp st op → ∀ p t, mapGet st.transactions p = some t →
      t.status = "completed" →
      ∃ t2, mapGet (applyOp st op).transactions p = some t2 ∧
        t2.status = "completed") ∧
    (∀ op, freshOp st op → ∀ p t t2, mapGet st.transactions p = some t →
      t.status = "pending" →
      mapGet (applyOp st op).transactions p = some t2 →
      t2.status = "pending" ∨ t2.status = "completed") := by
  have hinv : statusOk st := by
    induction h with
    | empty =>
      intro p t hp
      simp [emptyStore, mapGet] at hp
    | step hr hf ih => exact statusOk_applyOp _ _ ih
  refine ⟨hinv, fun op hf p t hp hc => completed_persists st op hf p t hp hc,
    fun op hf p t t2 hp hpend hp2 => statusOk_applyOp st op hinv p t2 hp2⟩

def c5Op1 : Op :=
  .create (some "a@b.com") (some "A") (some "u1") none none none
    (.ok "pi_1" "s1") 1

def c5Op2 : Op := .confirm (some "pi_1") (some "u1") "succeeded" 999 2

def c5Store : Store := applyOp (applyOp emptyStore c5Op1) c5Op2

theorem c5Store_reachable : Reachable c5Store :=
  Reachable.step (Reachable.step Reachable.empty (by exact rfl)) trivial

def c5Tx : Transaction :=
  { paymentIntentId := "pi_1", userId := "u1", userName := "A"
    userEmail := "a@b.com", amount := 999, currency := "usd"
    status := "completed", createdAt := 1, completedAt := some 2
    deviceInfo := none, appVersion := none
    purchaseType := "unlimited_video_selection" }

/-- Witness for C5: in the concrete reachable two-step ledger, a further
confirmation keeps the completed transaction completed. -/
theorem transaction_status_monotonic_witness :
    ∃ t2, mapGet (applyOp c5Store
        (Op.confirm (some "pi_1") (some "u1") "succeeded" 999 9)).transactions
        "pi_1" = some t2 ∧ t2.status = "completed" :=
  (transaction_status_monotonic c5Store c5Store_reachable).2.1
    (Op.confirm (some "pi_1") (some "u1") "succeeded" 999 9) trivial
    "pi_1" c5Tx (by decide) (by decide)

/-! ### C7: the per-user query -/

/-- C7: an unknown user id yields the not-found error, never a default
record; a known user id yields that user's record, a list that is a
permutation of exactly that user's transactions sorted newest-first by
`createdAt`, and a summary whose counts are the independently recomputed
ones over the unsorted store, whose `totalSpent` is the user's, and whose
`isPremium` defaults to false when unset. -/
theorem getUser_spec (st : Store) (uid : String) :
    (mapGet st.users uid = none → getUser st uid = .notFound "User not found") ∧
    (∀ u, mapGet st.users uid = some u →
      ∃ txs, getUser st uid = .ok u txs
          { totalTransactions :=
              ((st.transactions.map Prod.snd).filter
                (fun t => t.userId == uid)).length
            successfulTransactions :=
              (((st.transactions.map Prod.snd).filter
                (fun t => t.userId == uid)).filter
                  (fun t => t.status == "completed")).length
            totalSpent := u.totalSpent
            isPremium := u.isPremium.getD false } ∧
        txs.Perm ((st.transactions.map Prod.snd).filter
          (fun t => t.userId == uid)) ∧
        List.Sorted byNewest txs) := by
  constructor
  · intro h
    simp [getUser, h]
  · intro u hu
    have hperm :
        (sortNewestFirst ((st.transactions.map Prod.snd).filter
            (fun t => t.userId == uid))).Perm
          ((st.transactions.map Prod.snd).filter (fun t => t.userId == uid)) :=
      List.perm_insertionSort byNewest _
    refine ⟨sortNewestFirst ((st.transactions.map Prod.snd).filter
      (fun t => t.userId == uid)), ?_, hperm, ?_⟩
    · simp only [getUser, hu]
      rw [hperm.length_eq, (hperm.filter (fun t => t.status == "completed")).length_eq]
    · exact List.sorted_insertionSort byNewest _

def c7T1 : Transaction :=
  { paymentIntentId := "pi_1", userId := "u1", userName := "A"
    userEmail := "a@b.com", amount := 999, currency := "usd"
    status := "completed", createdAt := 1, completedAt := some 3
    deviceInfo := none, appVersion := none
    purchaseType := "unlimited_video_selection" }

def c7T2 : Transaction :=
  { c7T1 with
    paymentIntentId := "pi_2"
    status := "pending"
    createdAt := 5
    completedAt := none }

def c7T3 : Transaction :=
  { c7T1 with
    paymentIntentId := "pi_3"
    userId := "u2"
    status := "pending"
    createdAt := 4
    completedAt := none }

def c7User : User :=
  { userId := "u1", userName := "A", userEmail := "a@b.com", firstSeen := 1
    lastPurchaseAttempt := 5, totalAttempts := 2, successfulPurchases := 1
    totalSpent := 999, lastSuccessfulPurchase := some 3, isPremium := some true }

def c7Store : Store :=
  ⟨[("pi_1", c7T1), ("pi_2", c7T2), ("pi_3", c7T3)], [("u1", c7User)]⟩

/-- Witness for C7: the not-found branch on an unknown id and the full
response for a known user with a foreign transaction filtered out. -/
theorem getUser_spec_witness :
    getUser c7Store "nobody" = .notFound "User not found" ∧
    (∃ txs, getUser c7Store "u1" = .ok c7User txs ⟨2, 1, 999, true⟩ ∧
      txs.Perm [c7T1, c7T2] ∧ List.Sorted byNewest txs) := by
  constructor
  · exact (getUser_spec c7Store "nobody").1 (by decide)
  · obtain ⟨txs, h1, h2, h3⟩ := (getUser_spec c7Store "u1").2 c7User (by decide)
    have hflt :
        (c7Store.transactions.map Prod.snd).filter (fun t => t.userId == "u1") =
          [c7T1, c7T2] := by decide
    have hsum :
        ({ totalTransactions :=
              ((c7Store.transactions.map Prod.snd).filter
                (fun t => t.userId == "u1")).length
           successfulTransactions :=
              (((c7Store.transactions.map Prod.snd).filter
                (fun t => t.userId == "u1")).filter
                  (fun t => t.status == "completed")).length
           totalSpent := c7User.totalSpent
           isPremium := c7User.isPremium.getD false } : UserSummary) =
          ⟨2, 1, 999, true⟩ := by decide
    rw [hsum] at h1
    rw [hflt] at h2
    exact ⟨txs, h1, h2, h3⟩

/-! ### C8: the admin listing -/

/-- C8: for every ledger state the admin listing is a permutation of all
stored transactions sorted newest-first by `createdAt`, and its summary
equals the independently recomputed counts over the unsorted store: total,
completed, and pending counts, revenue as the sum of `amount` over exactly
the completed transactions, and the number of distinct user ids. -/
theorem listAllTransactions_spec (st : Store) :
    (listAllTransactions st).1.Perm (st.transactions.map Prod.snd) ∧
    List.Sorted byNewest (listAllTransactions st).1 ∧
    (listAllTransactions st).2 =
      { totalTransactions := (st.transactions.map Prod.snd).length
        completedTransactions :=
          ((st.transactions.map Prod.snd).filter
            (fun t => t.status == "completed")).length
        pendingTransactions :=
          ((st.transactions.map Prod.snd).filter
            (fun t => t.status == "pending")).length
        totalRevenue :=
          (((st.transactions.map Prod.snd).filter
            (fun t => t.status == "completed")).map (fun t => t.amount)).sum
        uniqueUsers :=
          ((st.transactions.map Prod.snd).map (fun t => t.userId)).toFinset.card } := by
  have hperm :
      (sortNewestFirst (st.transactions.map Prod.snd)).Perm
        (st.transactions.map Prod.snd) :=
    List.perm_insertionSort byNewest _
  refine ⟨hperm, List.sorted_insertionSort byNewest _, ?_⟩
  simp only [listAllTransactions]
  rw [hperm.length_eq,
    (hperm.filter (fun t => t.status == "completed")).length_eq,
    (hperm.filter (fun t => t.status == "pending")).length_eq,
    ((hperm.filter (fun t => t.status == "completed")).map
      (fun t => t.amount)).sum_eq,
    ((hperm.map (fun t => t.userId)).dedup).length_eq,
    List.card_toFinset]

end KidTok
